import Mathlib

/-!
Verification development for the SWOB-to-GeoJSON converter.

The repository holds two drafts of the same utility: an initial prototype
(`swob2geojson.py`) and a refined second iteration (`swob2geojsonV2.py`).
Each draft exposes `parse_swob`, which reads a SWOB XML file and extracts a
record, and `swob2geojson`, which projects such a record to a GeoJSON
Feature.

Modelling choices, each noted where it applies:
  * An XML element is a node with a tag, an ordered attribute list, a text
    content, and children.  `ElementTree` stores tags namespace-expanded and
    the code recovers the local part with `tag.split(chr(125))[1]`; we store
    the local tag directly, since no claim concerns malformed tags.
  * `Element.text` is `None` in Python when absent; we model it as a string
    (possibly empty), since no claim distinguishes the two.
  * `findall` on the five fixed XPath expressions is library behaviour, not
    repository code: a parsed document is modelled as the five lists of
    matches (`SwobDoc`).  `list(match.iter())` is the preorder traversal of
    a match, which we define on the tree.
  * Python dictionaries are modelled as ordered association lists where
    insertion updates an existing key in place (`dinsert`), exactly the
    observable behaviour of `dict.__setitem__` / `dict.__getitem__`.
  * A failed `et.parse` call (caught by the bare `except`) is modelled by
    handing the parser `Option SwobDoc` with `none` for the failure case.
    Uncaught runtime faults of the body (`IndexError` from indexing an
    empty `findall` result, `KeyError` from a missing attribute) are
    modelled by `Except Fault`.
-/

namespace Swob

/-- An XML element: local tag, attributes in document order, text content,
children in document order. -/
inductive Xml where
  | mk (tag : String) (attrs : List (String × String)) (text : String)
       (children : List Xml)

def Xml.tag : Xml → String
  | .mk t _ _ _ => t

def Xml.attrs : Xml → List (String × String)
  | .mk _ a _ _ => a

def Xml.text : Xml → String
  | .mk _ _ x _ => x

def Xml.children : Xml → List Xml
  | .mk _ _ _ c => c

/-- First binding of an attribute key, as in a Python `dict` built from
unique keys. `attr? e k = some v` models `k in e.attrib` with value `v`. -/
def attr? (e : Xml) (k : String) : Option String :=
  go e.attrs
where
  go : List (String × String) → Option String
    | [] => none
    | (k', v) :: r => if k' = k then some v else go r

/-- Attribute value with a default, modelling `attrib[k] if k in attrib else d`. -/
def attrD (e : Xml) (k d : String) : String :=
  (attr? e k).getD d

mutual

/-- Preorder traversal of an element, modelling `list(element.iter())`. -/
def preorder : Xml → List Xml
  | .mk t a x cs => .mk t a x cs :: preorderList cs

/-- Preorder traversal of a forest, left to right. -/
def preorderList : List Xml → List Xml
  | [] => []
  | c :: cs => preorder c ++ preorderList cs

end

/-- Ordered dictionary lookup (`d[k]` when present). -/
def dlookup {α : Type} : List (String × α) → String → Option α
  | [], _ => none
  | (k', v) :: r, k => if k' = k then some v else dlookup r k

/-- Ordered dictionary update `d[k] = v`: replaces the first binding of `k`
in place, appends a fresh binding otherwise — the observable behaviour of
assignment into a Python `dict`. -/
def dinsert {α : Type} : List (String × α) → String → α → List (String × α)
  | [], k, v => [(k, v)]
  | (k', v') :: r, k, v =>
      if k' = k then (k, v) :: r else (k', v') :: dinsert r k v

/-- Uncaught Python runtime faults the parser bodies can raise. -/
inductive Fault where
  | indexError
  | keyError
deriving DecidableEq

/-- A parsed SWOB document, given as the `findall` match lists for the five
fixed XPath expressions used by both drafts of `parse_swob`. -/
structure SwobDoc where
  general : List Xml
  identification : List Xml
  samplingTime : List Xml
  resultTime : List Xml
  resultElements : List Xml

/-- Splitting a character list at every backslash, modelling
Python `str.split` with separator backslash: always returns at least one
piece, adjacent separators yield empty pieces. -/
def splitOnBackslash : List Char → List (List Char)
  | [] => [[]]
  | c :: rest =>
      let r := splitOnBackslash rest
      if c = '\\' then [] :: r
      else
        match r with
        | [] => [[c]]
        | h :: t => (c :: h) :: t

/-- Character-list core of the swob source-name computation:
`swob_name_split = swob_file.split` on backslash and
`swob_name = swob_name_split[len(swob_name_split) - 1]`. -/
def swobNameChars (p : List Char) : List Char :=
  (splitOnBackslash p).getLastD []

/-- The swob source name extracted from the input path (V2 lines 58–61,
V1 lines 58–59). -/
def swobName (p : String) : String :=
  String.mk (swobNameChars p.data)

/-- Replacement of every slash by a hyphen, modelling
`str.replace` applied to the one-character pattern. -/
def replaceSlashDash (s : String) : String :=
  String.mk (s.data.map fun c => if c = '/' then '-' else c)

/-! ### Refined iteration (swob2geojsonV2.py) -/

/-- One step of the V2 general-information loop (V2 lines 76–80): a named
element tagged `dataset` records its `name` attribute, slashes replaced by
hyphens, under its tag. -/
def generalStep (props : List (String × String)) (e : Xml) :
    List (String × String) :=
  match attr? e "name" with
  | none => props
  | some nm => if e.tag = "dataset" then dinsert props e.tag (replaceSlashDash nm) else props

/-- The V2 properties map after the general loop and the swob-name insertion
(V2 lines 76–83), for general match `g` and source name `nm`. -/
def generalPropsOf (nm : String) (g : Xml) : List (String × String) :=
  dinsert ((preorder g).foldl generalStep []) "swob" nm

/-- State of the V2 identification loop. -/
structure IState where
  props : List (String × String)
  elevation : String
  latitude : String
  longitude : String
deriving DecidableEq

/-- One step of the V2 identification loop (V2 lines 89–113).  For a named
element the `value` attribute is read unconditionally (`element.attrib` with
key `value`), so its absence raises `KeyError`, modelled by `none`. -/
def identStep (s : IState) (e : Xml) : Option IState :=
  match attr? e "name" with
  | none => some s
  | some name =>
    match attr? e "value" with
    | none => none
    | some value =>
      if name = "stn_nam" then some { s with props := dinsert s.props name value }
      else if name = "tc_id" then some { s with props := dinsert s.props name value }
      else if name = "msc_id" then some { s with props := dinsert s.props name value }
      else if name = "clim_id" then some { s with props := dinsert s.props name value }
      else if name = "stn_elev" then some { s with elevation := value }
      else if name = "lat" then some { s with latitude := value }
      else if name = "long" then some { s with longitude := value }
      else some s

/-- The V2 identification loop over a list of elements. -/
def processIdent : List Xml → IState → Option IState
  | [], s => some s
  | e :: es, s =>
    match identStep s e with
    | none => none
    | some s' => processIdent es s'

/-- State of the V2 result loop: the properties map and `last_element`. -/
structure RState where
  props : List (String × String)
  last : String
deriving DecidableEq

/-- One step of the V2 result loop body (V2 lines 131–155): `value`
defaults to the empty string, `uom` is kept only when present and different
from `unitless` (the `if uom:` guard then tests non-emptiness), a primary
element records `value` (and `uom` when retained) and becomes
`last_element`, while `qa_summary` / `data_flag` elements record `value`
under the key built from `last_element`. -/
def resultStep (s : RState) (e : Xml) : RState :=
  match attr? e "name" with
  | none => s
  | some name =>
    let value := attrD e "value" ""
    let uom :=
      match attr? e "uom" with
      | none => ""
      | some u => if u ≠ "unitless" then u else ""
    if name ≠ "qa_summary" ∧ name ≠ "data_flag" then
      let ps := dinsert s.props name value
      let ps := if uom ≠ "" then dinsert ps (name ++ "_uom") uom else ps
      ⟨ps, name⟩
    else if name = "qa_summary" then
      ⟨dinsert s.props (s.last ++ "_qa") value, s.last⟩
    else
      ⟨dinsert s.props (s.last ++ "_data_flags") value, s.last⟩

/-- The V2 result loop over a list of visited elements. -/
def processResults : List Xml → RState → RState
  | [], s => s
  | e :: es, s => processResults es (resultStep s e)

/-- The sequence of elements visited by the nested result loops (V2 lines
126–131, V1 lines 118–124): the outer loop runs over `list(root.iter())`
and the inner loop re-traverses `element.iter()` for each of them. -/
def resultSeqOf (root : Xml) : List Xml :=
  ((preorder root).map preorder).flatten

/-- The record assembled by the refined parser: `coordinates` and
`properties` entries of `swob_values` (each may be missing in a dictionary
handed to the builder). -/
structure SwobDict where
  coordinates : Option (List String)
  properties : Option (List (String × String))
deriving DecidableEq

/-- Body of the refined `parse_swob` after a successful XML parse
(V2 lines 70–159), for source name `nm`.  Indexing an empty `findall`
result raises `IndexError`; the identification loop can raise `KeyError`. -/
def parseSwobBodyV2 (nm : String) (doc : SwobDoc) : Except Fault SwobDict :=
  match doc.general with
  | [] => .error .indexError
  | g :: _ =>
    let props0 := generalPropsOf nm g
    match doc.identification with
    | [] => .error .indexError
    | i :: _ =>
      match processIdent (preorder i) ⟨props0, "", "", ""⟩ with
      | none => .error .keyError
      | some ist =>
        match doc.samplingTime with
        | [] => .error .indexError
        | ts :: _ =>
          match doc.resultTime with
          | [] => .error .indexError
          | tr :: _ =>
            match doc.resultElements with
            | [] => .error .indexError
            | res :: _ =>
              let props1 := dinsert (dinsert ist.props "obs_date_tm" ts.text)
                              "processed_date_tm" tr.text
              let rst := processResults (resultSeqOf res) ⟨props1, ""⟩
              .ok ⟨some [ist.longitude, ist.latitude, ist.elevation],
                   some rst.props⟩

/-- The refined `parse_swob` (V2 lines 45–159): the try/except around
`et.parse` is modelled by the `Option SwobDoc` argument, `none` standing
for a failed parse, in which case the function prints a message and falls
through, returning `None` (here `.ok none`). -/
def parse_swobV2 (swobFile : String) (parsed : Option SwobDoc) :
    Except Fault (Option SwobDict) :=
  match parsed with
  | none => .ok none
  | some doc => (parseSwobBodyV2 (swobName swobFile) doc).map some

/-- Point geometry of the produced Feature. -/
structure Geometry where
  type : String
  coordinates : List String
deriving DecidableEq

/-- GeoJSON Feature assembled by the refined builder. -/
structure Feature where
  type : String
  geometry : Geometry
  properties : List (String × String)
deriving DecidableEq

/-- The refined `swob2geojson` (V2 lines 181–192): the membership test on
the two keys guards the construction; on failure the function prints an
error and returns `None` (here `none`). -/
def swob2geojson (d : SwobDict) : Option Feature :=
  match d.properties, d.coordinates with
  | some ps, some cs => some ⟨"Feature", ⟨"Point", cs⟩, ps⟩
  | _, _ => none

/-! ### Initial prototype (swob2geojson.py) -/

/-- A value stored in the prototype general-information map: a single
string when the element carries one attribute, the list of attribute
values otherwise (V1 lines 80–83). -/
inductive GVal where
  | s (v : String)
  | l (vs : List String)
deriving DecidableEq

/-- One step of the prototype general loop (V1 lines 72–83): every named
element is recorded under its tag, the `name` attribute value with slashes
replaced, the other attribute values verbatim, in attribute order; a
single value is unwrapped from its list. -/
def generalStepV1 (props : List (String × GVal)) (e : Xml) :
    List (String × GVal) :=
  match attr? e "name" with
  | none => props
  | some _ =>
    let vl := e.attrs.map fun kv =>
      if kv.1 = "name" then replaceSlashDash kv.2 else kv.2
    if vl.length > 1 then dinsert props e.tag (GVal.l vl)
    else dinsert props e.tag (GVal.s (vl.headD ""))

/-- State of the prototype identification loop. -/
structure IStateV1 where
  identifications : List (String × List String)
  elevation : String
  latitude : String
  longitude : String

/-- One step of the prototype identification loop (V1 lines 91–105): when
the key iteration reaches `name` and the name is one of the three
coordinate names, `attrib` is indexed at `value` (a `KeyError`, modelled
by `none`, when absent); the values of all non-`name` attributes are
collected in order and stored under the name. -/
def identStepV1 (s : IStateV1) (e : Xml) : Option IStateV1 :=
  match attr? e "name" with
  | none => some s
  | some n =>
    let vl := (e.attrs.filter fun kv => kv.1 ≠ "name").map Prod.snd
    let upd :=
      if n = "stn_elev" then (attr? e "value").map fun v => { s with elevation := v }
      else if n = "lat" then (attr? e "value").map fun v => { s with latitude := v }
      else if n = "long" then (attr? e "value").map fun v => { s with longitude := v }
      else some s
    match upd with
    | none => none
    | some s' => some { s' with identifications := dinsert s'.identifications n vl }

/-- The prototype identification loop over a list of elements. -/
def processIdentV1 : List Xml → IStateV1 → Option IStateV1
  | [], s => some s
  | e :: es, s =>
    match identStepV1 s e with
    | none => none
    | some s' => processIdentV1 es s'

/-- State of the prototype result loop: the results map and `last_element`. -/
structure RStateV1 where
  results : List (String × List String)
  last : String

/-- One step of the prototype result loop body (V1 lines 124–141): a named
element records the values of its non-`name` attributes, under its name
when the name differs from `qa_summary` (also updating `last_element`),
and under `last_element` joined to the name by an underscore otherwise.
Unlike the refined draft, `data_flag` is not special-cased here. -/
def resultStepV1 (s : RStateV1) (e : Xml) : RStateV1 :=
  match attr? e "name" with
  | none => s
  | some n =>
    let vl := (e.attrs.filter fun kv => kv.1 ≠ "name").map Prod.snd
    if n ≠ "qa_summary" then ⟨dinsert s.results n vl, n⟩
    else ⟨dinsert s.results (s.last ++ "_" ++ n) vl, s.last⟩

/-- The prototype result loop over a list of visited elements. -/
def processResultsV1 : List Xml → RStateV1 → RStateV1
  | [], s => s
  | e :: es, s => processResultsV1 es (resultStepV1 s e)

/-- The record assembled by the prototype parser (V1 `swob_values`). -/
structure RecordV1 where
  properties : List (String × GVal)
  identification : List (String × List String)
  coordinates : List String
  sampleTime : String
  resultTime : String
  results : List (String × List String)

/-- Body of the prototype `parse_swob` after a successful XML parse
(V1 lines 67–145). -/
def parseSwobBodyV1 (doc : SwobDoc) : Except Fault RecordV1 :=
  match doc.general with
  | [] => .error .indexError
  | g :: _ =>
    let props := (preorder g).foldl generalStepV1 []
    match doc.identification with
    | [] => .error .indexError
    | i :: _ =>
      match processIdentV1 (preorder i) ⟨[], "", "", ""⟩ with
      | none => .error .keyError
      | some ist =>
        match doc.samplingTime with
        | [] => .error .indexError
        | ts :: _ =>
          match doc.resultTime with
          | [] => .error .indexError
          | tr :: _ =>
            match doc.resultElements with
            | [] => .error .indexError
            | res :: _ =>
              let rst := processResultsV1 (resultSeqOf res) ⟨[], ""⟩
              .ok ⟨props, ist.identifications,
                   [ist.longitude, ist.latitude, ist.elevation],
                   ts.text, tr.text, rst.results⟩

/-- The prototype `parse_swob` (V1 lines 45–145): same try/except shape as
the refined draft; the computed swob source name is never stored. -/
def parse_swobV1 (_swobFile : String) (parsed : Option SwobDoc) :
    Except Fault (Option RecordV1) :=
  match parsed with
  | none => .ok none
  | some doc => (parseSwobBodyV1 doc).map some

/-! ### Characterization helpers (stated from the specification text) -/

/-- The `value` attribute of the last element of the list whose `name`
attribute equals `n`, with default `d`: the value a repeatedly overwritten
assignment holds after a loop. -/
def lastValueD (n : String) : List Xml → String → String
  | [], d => d
  | e :: es, d =>
      lastValueD n es (if attr? e "name" = some n then attrD e "value" "" else d)

/-- The name of the last primary result element of the list (named, and
named neither `qa_summary` nor `data_flag`), with default `d`: the value
`last_element` holds after the result loop. -/
def lastPrimaryD (d : String) : List Xml → String
  | [] => d
  | e :: es =>
    match attr? e "name" with
    | none => lastPrimaryD d es
    | some n =>
      if n ≠ "qa_summary" ∧ n ≠ "data_flag" then lastPrimaryD n es
      else lastPrimaryD d es

/-! ### Concrete documents and elements used as test inputs -/

/-- An element with the given attributes and no children. -/
def elemN (nv : List (String × String)) : Xml :=
  Xml.mk "element" nv "" []

/-- The identification subtree of the worked example: elements carrying
`stn_elev=100`, `lat=45.5`, `long=-75.5`. -/
def i8 : Xml :=
  Xml.mk "identification-elements" [] ""
    [elemN [("name", "stn_elev"), ("value", "100")],
     elemN [("name", "lat"), ("value", "45.5")],
     elemN [("name", "long"), ("value", "-75.5")]]

/-- The worked example of the specification: a document whose
identification elements carry `stn_elev=100`, `lat=45.5`, `long=-75.5`,
with a `dataset` general element, both timestamps, a `temp` measurement
with a unit and a following `qa_summary`. -/
def D8 : SwobDoc :=
  { general := [Xml.mk "general" [] ""
      [Xml.mk "dataset" [("name", "data/auto")] "" []]]
    identification := [i8]
    samplingTime := [Xml.mk "timePosition" [] "2020-06-08T00:00:00Z" []]
    resultTime := [Xml.mk "timePosition" [] "2020-06-08T00:01:00Z" []]
    resultElements := [Xml.mk "elements" [] ""
      [elemN [("name", "temp"), ("value", "2.0"), ("uom", "degC")],
       elemN [("name", "qa_summary"), ("value", "100")]]] }

/-- The identification-loop state reached on the worked example. -/
def st8 : IState :=
  ⟨[], "100", "45.5", "-75.5"⟩

/-- A minimal well-formed document: every required subtree present, no
named elements anywhere. -/
def Dmin : SwobDoc :=
  { general := [Xml.mk "general" [] "" []]
    identification := [Xml.mk "identification-elements" [] "" []]
    samplingTime := [Xml.mk "timePosition" [] "ta" []]
    resultTime := [Xml.mk "timePosition" [] "tb" []]
    resultElements := [Xml.mk "elements" [] "" []] }

/-- A document whose identification subtree holds one element with a
`name` attribute (`stn_typ`, outside the recognized set) and no `value`
attribute. -/
def D9 : SwobDoc :=
  { general := [Xml.mk "general" [] "" []]
    identification := [Xml.mk "identification-elements" [] ""
      [elemN [("name", "stn_typ")]]]
    samplingTime := [Xml.mk "timePosition" [] "ta" []]
    resultTime := [Xml.mk "timePosition" [] "tb" []]
    resultElements := [Xml.mk "elements" [] "" []] }

/-- The initial state of the refined identification loop, over an empty
properties map. -/
def iInit : IState :=
  ⟨[], "", "", ""⟩

/-- An identification element named `lat` with value `1`. -/
def eLatOne : Xml :=
  elemN [("name", "lat"), ("value", "1")]

/-- An identification element named `lat` with value `2`. -/
def eLatTwo : Xml :=
  elemN [("name", "lat"), ("value", "2")]

/-- A primary result element named `temp` whose `uom` attribute is the
empty string. -/
def eTempEmptyUom : Xml :=
  elemN [("name", "temp"), ("value", "5"), ("uom", "")]

/-- A primary result element named `temp` with unit `degC`. -/
def eTempDegC : Xml :=
  elemN [("name", "temp"), ("value", "2.0"), ("uom", "degC")]

/-- A primary result element named `temp` whose `uom` is `unitless`. -/
def eTempUnitless : Xml :=
  elemN [("name", "temp"), ("value", "2.0"), ("uom", "unitless")]

/-- A primary result element named `temp` with no `uom` attribute. -/
def eTempPlain : Xml :=
  elemN [("name", "temp"), ("value", "2.0")]

/-- A `qa_summary` annotation element with value `100`. -/
def eQa : Xml :=
  elemN [("name", "qa_summary"), ("value", "100")]

/-- A `data_flag` annotation element with value `101`. -/
def eFlag : Xml :=
  elemN [("name", "data_flag"), ("value", "101")]

/-- The identification element of `D9`: named, with no `value` attribute. -/
def eStnTyp : Xml :=
  elemN [("name", "stn_typ")]

/-- The record the refined parser extracts from `Dmin`. -/
def recMinV2 : SwobDict :=
  ⟨some ["", "", ""],
   some [("swob", "f.xml"), ("obs_date_tm", "ta"), ("processed_date_tm", "tb")]⟩

/-- The record the prototype parser extracts from `Dmin`. -/
def recMinV1 : RecordV1 :=
  ⟨[], [], ["", "", ""], "ta", "tb", []⟩

/-- The record the prototype parser extracts from `D9`. -/
def rec9V1 : RecordV1 :=
  ⟨[], [("stn_typ", [])], ["", "", ""], "ta", "tb", []⟩

/-! ### Dictionary lemmas -/

theorem dlookup_dinsert_self {α : Type} (m : List (String × α)) (k : String)
    (v : α) : dlookup (dinsert m k v) k = some v := by
  induction m with
  | nil => simp [dinsert, dlookup]
  | cons kv r ih =>
    obtain ⟨k', v'⟩ := kv
    by_cases h : k' = k <;> simp [dinsert, dlookup, h, ih]

theorem dlookup_dinsert_ne {α : Type} (m : List (String × α)) (k' k : String)
    (v : α) (h : k' ≠ k) : dlookup (dinsert m k' v) k = dlookup m k := by
  induction m with
  | nil => simp [dinsert, dlookup, h]
  | cons kv r ih =>
    obtain ⟨k'', v''⟩ := kv
    by_cases h2 : k'' = k'
    · subst h2
      simp [dinsert, dlookup, h]
    · simp only [dinsert, if_neg h2]
      by_cases h3 : k'' = k <;> simp [dlookup, h3, ih]

/-! ### Result-loop lemmas -/

theorem processResults_append (l₁ l₂ : List Xml) (s : RState) :
    processResults (l₁ ++ l₂) s = processResults l₂ (processResults l₁ s) := by
  induction l₁ generalizing s with
  | nil => rfl
  | cons e es ih => simp [processResults, ih]

theorem processResults_last (es : List Xml) (s : RState) :
    (processResults es s).last = lastPrimaryD s.last es := by
  induction es generalizing s with
  | nil => rfl
  | cons e es ih =>
    simp only [processResults, lastPrimaryD]
    cases hn : attr? e "name" with
    | none => rw [ih]; simp [resultStep, hn]
    | some n =>
      by_cases hq : n ≠ "qa_summary" ∧ n ≠ "data_flag"
      · rw [ih]
        simp only [resultStep, hn, if_pos hq]
      · rw [ih]
        simp only [resultStep, hn, if_neg hq]
        by_cases hqa : n = "qa_summary" <;> simp [hqa]

theorem name_ne_append_uom (name : String) : name ≠ name ++ "_uom" := by
  intro h
  have hl := congrArg String.length h
  rw [String.length_append] at hl
  have h4 : "_uom".length = 4 := rfl
  rw [h4] at hl
  omega

/-! ### Identification-loop characterization -/

theorem identStep_slots (s s' : IState) (e : Xml) (h : identStep s e = some s') :
    s'.elevation = (if attr? e "name" = some "stn_elev"
                    then attrD e "value" "" else s.elevation) ∧
    s'.latitude = (if attr? e "name" = some "lat"
                   then attrD e "value" "" else s.latitude) ∧
    s'.longitude = (if attr? e "name" = some "long"
                    then attrD e "value" "" else s.longitude) := by
  cases hn : attr? e "name" with
  | none =>
    simp only [identStep, hn] at h
    cases h
    simp [hn]
  | some n =>
    cases hv : attr? e "value" with
    | none => simp [identStep, hn, hv] at h
    | some v =>
      simp only [identStep, hn, hv] at h
      simp only [hn, Option.some.injEq, attrD, hv, Option.getD_some]
      split_ifs at h with h1 h2 h3 h4 h5 h6 h7 <;>
        cases h <;> simp_all

theorem processIdent_coords (es : List Xml) (s st : IState)
    (h : processIdent es s = some st) :
    st.elevation = lastValueD "stn_elev" es s.elevation ∧
    st.latitude = lastValueD "lat" es s.latitude ∧
    st.longitude = lastValueD "long" es s.longitude := by
  induction es generalizing s with
  | nil =>
    simp only [processIdent] at h
    cases h
    simp [lastValueD]
  | cons e es ih =>
    simp only [processIdent] at h
    cases hs : identStep s e with
    | none => rw [hs] at h; cases h
    | some s' =>
      rw [hs] at h
      obtain ⟨he, hl, ho⟩ := identStep_slots s s' e hs
      obtain ⟨ihe, ihl, iho⟩ := ih s' h
      simp only [lastValueD]
      exact ⟨by rw [ihe, he], by rw [ihl, hl], by rw [iho, ho]⟩

theorem identStepV1_slots (s s' : IStateV1) (e : Xml)
    (h : identStepV1 s e = some s') :
    s'.elevation = (if attr? e "name" = some "stn_elev"
                    then attrD e "value" "" else s.elevation) ∧
    s'.latitude = (if attr? e "name" = some "lat"
                   then attrD e "value" "" else s.latitude) ∧
    s'.longitude = (if attr? e "name" = some "long"
                    then attrD e "value" "" else s.longitude) := by
  cases hn : attr? e "name" with
  | none =>
    simp only [identStepV1, hn] at h
    cases h
    simp [hn]
  | some n =>
    simp only [identStepV1, hn] at h
    simp only [hn, Option.some.injEq, attrD]
    split_ifs at h with h1 h2 h3 <;>
      [skip; skip; skip; (cases h <;> simp_all)] <;>
      (cases hv : attr? e "value" with
       | none => rw [hv] at h; simp [Option.map] at h
       | some v => rw [hv] at h; simp only [Option.map] at h; cases h <;> simp_all)

theorem processIdentV1_coords (es : List Xml) (s st : IStateV1)
    (h : processIdentV1 es s = some st) :
    st.elevation = lastValueD "stn_elev" es s.elevation ∧
    st.latitude = lastValueD "lat" es s.latitude ∧
    st.longitude = lastValueD "long" es s.longitude := by
  induction es generalizing s with
  | nil =>
    simp only [processIdentV1] at h
    cases h
    simp [lastValueD]
  | cons e es ih =>
    simp only [processIdentV1] at h
    cases hs : identStepV1 s e with
    | none => rw [hs] at h; cases h
    | some s' =>
      rw [hs] at h
      obtain ⟨he, hl, ho⟩ := identStepV1_slots s s' e hs
      obtain ⟨ihe, ihl, iho⟩ := ih s' h
      simp only [lastValueD]
      exact ⟨by rw [ihe, he], by rw [ihl, hl], by rw [iho, ho]⟩

/-! ### Path-splitting lemmas -/

theorem splitOnBackslash_ne_nil (l : List Char) : splitOnBackslash l ≠ [] := by
  cases l with
  | nil => simp [splitOnBackslash]
  | cons c rest =>
    simp only [splitOnBackslash]
    by_cases h : c = '\\'
    · simp [h]
    · simp only [if_neg h]
      cases splitOnBackslash rest <;> simp

theorem splitOnBackslash_two_pieces (l : List Char) (h : '\\' ∈ l) :
    2 ≤ (splitOnBackslash l).length := by
  induction l with
  | nil => cases h
  | cons c rest ih =>
    simp only [splitOnBackslash]
    by_cases hc : c = '\\'
    · have h1 : 0 < (splitOnBackslash rest).length :=
        List.length_pos.mpr (splitOnBackslash_ne_nil rest)
      simp only [if_pos hc, List.length_cons]
      omega
    · have hr : '\\' ∈ rest := by
        rcases List.mem_cons.mp h with h' | h'
        · exact absurd h'.symm hc
        · exact h'
      have h2 := ih hr
      simp only [if_neg hc]
      cases hsp : splitOnBackslash rest with
      | nil => exact absurd hsp (splitOnBackslash_ne_nil rest)
      | cons hh tt =>
        rw [hsp] at h2
        simp only [List.length_cons] at h2 ⊢
        omega

theorem getLastD_of_ne_nil {α : Type} (l : List α) (d d' : α) (h : l ≠ []) :
    l.getLastD d = l.getLastD d' := by
  cases l with
  | nil => exact absurd rfl h
  | cons x xs => rw [List.getLastD_cons, List.getLastD_cons]

theorem splitOnBackslash_cons_sep (rest : List Char) :
    splitOnBackslash ('\\' :: rest) = [] :: splitOnBackslash rest := by
  simp [splitOnBackslash]

theorem splitOnBackslash_cons_ne (c : Char) (rest : List Char) (hc : c ≠ '\\')
    (hh : List Char) (tt : List (List Char))
    (hsp : splitOnBackslash rest = hh :: tt) :
    splitOnBackslash (c :: rest) = (c :: hh) :: tt := by
  simp [splitOnBackslash, hc, hsp]

theorem swobNameChars_append (a b : List Char) :
    swobNameChars (a ++ '\\' :: b) = swobNameChars b := by
  induction a with
  | nil =>
    show (splitOnBackslash ('\\' :: b)).getLastD [] = swobNameChars b
    rw [splitOnBackslash_cons_sep, List.getLastD_cons]
    exact getLastD_of_ne_nil _ _ _ (splitOnBackslash_ne_nil b)
  | cons c a' ih =>
    show (splitOnBackslash (c :: (a' ++ '\\' :: b))).getLastD [] = swobNameChars b
    by_cases hc : c = '\\'
    · subst hc
      rw [splitOnBackslash_cons_sep, List.getLastD_cons]
      rw [getLastD_of_ne_nil _ _ [] (splitOnBackslash_ne_nil _)]
      exact ih
    · cases hsp : splitOnBackslash (a' ++ '\\' :: b) with
      | nil => exact absurd hsp (splitOnBackslash_ne_nil _)
      | cons hh tt =>
        have h2 : 2 ≤ (splitOnBackslash (a' ++ '\\' :: b)).length :=
          splitOnBackslash_two_pieces _ (by simp)
        rw [hsp] at h2
        simp only [List.length_cons] at h2
        have htt : tt ≠ [] := by
          intro hE
          subst hE
          simp at h2
        have ih2 : tt.getLastD hh = swobNameChars b := by
          rw [← ih]
          show tt.getLastD hh = (splitOnBackslash (a' ++ '\\' :: b)).getLastD []
          rw [hsp, List.getLastD_cons]
        rw [splitOnBackslash_cons_ne c _ hc hh tt hsp, List.getLastD_cons]
        rw [getLastD_of_ne_nil tt (c :: hh) hh htt]
        exact ih2

theorem splitOnBackslash_no_sep (p : List Char) (h : '\\' ∉ p) :
    splitOnBackslash p = [p] := by
  induction p with
  | nil => rfl
  | cons c rest ih =>
    have hc : c ≠ '\\' := fun hE => h (hE ▸ List.mem_cons_self c rest)
    have hr : '\\' ∉ rest := fun hE => h (List.mem_cons_of_mem c hE)
    simp only [splitOnBackslash, if_neg hc, ih hr]

theorem swobNameChars_no_sep (p : List Char) (h : '\\' ∉ p) :
    swobNameChars p = p := by
  simp [swobNameChars, splitOnBackslash_no_sep p h]

/-! ### Claims -/

/-- Claim C1, counterexample: on a forward-slash path the extracted swob
source name keeps the whole directory prefix instead of the base file
name, both at the name computation and in the properties map. -/
theorem c1_counterexample :
    swobName "C:/data/ob.xml" = "C:/data/ob.xml" ∧
    dlookup (generalPropsOf (swobName "C:/data/ob.xml")
        (Xml.mk "general" [] "" [])) "swob" = some "C:/data/ob.xml" ∧
    ("C:/data/ob.xml" : String) ≠ "ob.xml" :=
  ⟨rfl, rfl, by decide⟩

/-- Claim C1, amended: after the general stage the properties map holds,
under key `swob`, the final component of the input path split on
backslashes; that component is the base name whenever the separators are
backslashes, while a path without backslashes (for example one with
forward-slash separators) is kept whole. -/
theorem c1_swob_after_last_backslash :
    (∀ (f : String) (g : Xml),
        dlookup (generalPropsOf (swobName f) g) "swob" = some (swobName f)) ∧
    (∀ a b : List Char, '\\' ∉ b → swobNameChars (a ++ '\\' :: b) = b) ∧
    (∀ p : List Char, '\\' ∉ p → swobNameChars p = p) := by
  refine ⟨?_, ?_, ?_⟩
  · intro f g
    exact dlookup_dinsert_self _ _ _
  · intro a b hb
    rw [swobNameChars_append a b, swobNameChars_no_sep b hb]
  · exact swobNameChars_no_sep

/-- Claim C1, witness for the amended theorem at a backslash path. -/
theorem c1_witness :
    dlookup (generalPropsOf (swobName "dir\\ob.xml") (Xml.mk "general" [] "" []))
        "swob" = some (swobName "dir\\ob.xml") ∧
    swobNameChars ("dir".data ++ '\\' :: "ob.xml".data) = "ob.xml".data ∧
    swobNameChars "ob.xml".data = "ob.xml".data :=
  ⟨c1_swob_after_last_backslash.1 "dir\\ob.xml" (Xml.mk "general" [] "" []),
   c1_swob_after_last_backslash.2.1 "dir".data "ob.xml".data (by decide),
   c1_swob_after_last_backslash.2.2 "ob.xml".data (by decide)⟩

/-- Claim C2, counterexample: two identification elements named `lat` with
values `1` then `2` leave latitude `2` — the last occurrence wins, not the
first. -/
theorem c2_counterexample :
    (processIdent [eLatOne, eLatTwo] iInit).map IState.latitude = some "2" ∧
    (processIdent [eLatOne, eLatTwo] iInit).map IState.latitude ≠ some "1" :=
  ⟨rfl, by decide⟩

/-- Claim C2, amended: an identification element named `stn_elev`, `lat` or
`long` has its `value` attribute captured as elevation, latitude or
longitude respectively, and when several identification elements carry the
same one of these three names the slot holds the value of the last such
element in document order (the loop assignment overwrites). -/
theorem c2_coord_capture_last_wins :
    (∀ (s s' : IState) (e : Xml) (v : String),
        attr? e "name" = some "stn_elev" → attr? e "value" = some v →
        identStep s e = some s' → s'.elevation = v) ∧
    (∀ (s s' : IState) (e : Xml) (v : String),
        attr? e "name" = some "lat" → attr? e "value" = some v →
        identStep s e = some s' → s'.latitude = v) ∧
    (∀ (s s' : IState) (e : Xml) (v : String),
        attr? e "name" = some "long" → attr? e "value" = some v →
        identStep s e = some s' → s'.longitude = v) ∧
    (∀ (es : List Xml) (s st : IState), processIdent es s = some st →
        st.elevation = lastValueD "stn_elev" es s.elevation ∧
        st.latitude = lastValueD "lat" es s.latitude ∧
        st.longitude = lastValueD "long" es s.longitude) := by
  refine ⟨?_, ?_, ?_, processIdent_coords⟩
  · intro s s' e v hn hv hstep
    have h1 := (identStep_slots s s' e hstep).1
    rw [hn] at h1
    simpa [attrD, hv] using h1
  · intro s s' e v hn hv hstep
    have h1 := (identStep_slots s s' e hstep).2.1
    rw [hn] at h1
    simpa [attrD, hv] using h1
  · intro s s' e v hn hv hstep
    have h1 := (identStep_slots s s' e hstep).2.2
    rw [hn] at h1
    simpa [attrD, hv] using h1

/-- Claim C2, witness: the last of two `lat` elements determines the
latitude slot. -/
theorem c2_witness :
    processIdent [eLatOne, eLatTwo] iInit = some ⟨[], "", "2", ""⟩ ∧
    IState.latitude ⟨[], "", "2", ""⟩ =
      lastValueD "lat" [eLatOne, eLatTwo] iInit.latitude :=
  ⟨rfl,
   (c2_coord_capture_last_wins.2.2.2 [eLatOne, eLatTwo] iInit
      ⟨[], "", "2", ""⟩ rfl).2.1⟩

/-- Claim C3, counterexample: a primary element whose `uom` attribute is
present and equal to the empty string (which differs from `unitless`)
produces no `temp_uom` property, against the claim that any present
non-`unitless` `uom` is recorded. -/
theorem c3_counterexample :
    attr? eTempEmptyUom "uom" = some "" ∧
    ("" : String) ≠ "unitless" ∧
    dlookup (processResults [eTempEmptyUom] ⟨[], ""⟩).props "temp_uom" = none :=
  ⟨rfl, by decide, rfl⟩

/-- Claim C3, amended: for a primary result element carrying a `uom`
attribute, processing the element leaves the `<name>_uom` entry unchanged
when the attribute is `unitless` or empty, and otherwise sets `<name>_uom`
to exactly the attribute value. -/
theorem c3_uom_property (s : RState) (e : Xml) (name u : String)
    (hn : attr? e "name" = some name) (hq : name ≠ "qa_summary")
    (hd : name ≠ "data_flag") (hu : attr? e "uom" = some u) :
    (u = "unitless" ∨ u = "" →
       dlookup (resultStep s e).props (name ++ "_uom") =
         dlookup s.props (name ++ "_uom")) ∧
    (u ≠ "unitless" → u ≠ "" →
       dlookup (resultStep s e).props (name ++ "_uom") = some u) := by
  simp only [resultStep, hn, hu]
  rw [if_pos ⟨hq, hd⟩]
  constructor
  · rintro (h | h) <;> subst h <;>
      exact dlookup_dinsert_ne s.props name (name ++ "_uom")
        (attrD e "value" "") (name_ne_append_uom name)
  · intro h1 h2
    rw [if_pos h1, if_pos h2]
    exact dlookup_dinsert_self _ _ _

/-- Claim C3, witness: a `degC` unit is recorded under `temp_uom`, and a
`unitless` one leaves the map without a `temp_uom` entry. -/
theorem c3_witness :
    attr? eTempDegC "uom" = some "degC" ∧
    dlookup (resultStep ⟨[], ""⟩ eTempDegC).props "temp_uom" = some "degC" ∧
    attr? eTempUnitless "uom" = some "unitless" ∧
    dlookup (resultStep ⟨[], ""⟩ eTempUnitless).props "temp_uom" = none :=
  ⟨rfl,
   (c3_uom_property ⟨[], ""⟩ eTempDegC "temp" "degC" rfl (by decide) (by decide)
      rfl).2 (by decide) (by decide),
   rfl,
   (c3_uom_property ⟨[], ""⟩ eTempUnitless "temp" "unitless" rfl (by decide)
      (by decide) rfl).1 (Or.inl rfl)⟩

/-- Claim C4: in the result traversal, a `qa_summary` element records its
value under the name of the nearest preceding primary element suffixed
`_qa`, and a `data_flag` element under that name suffixed `_data_flags`;
starting the loop with `last_element` empty, a prefix without primary
elements yields the empty prefix. -/
theorem c4_annotation_keys (s : RState) (pre : List Xml) (e : Xml) :
    (attr? e "name" = some "qa_summary" →
       dlookup (processResults (pre ++ [e]) s).props
         (lastPrimaryD s.last pre ++ "_qa") = some (attrD e "value" "")) ∧
    (attr? e "name" = some "data_flag" →
       dlookup (processResults (pre ++ [e]) s).props
         (lastPrimaryD s.last pre ++ "_data_flags") = some (attrD e "value" "")) := by
  have hlast : (processResults pre s).last = lastPrimaryD s.last pre :=
    processResults_last pre s
  constructor
  · intro hn
    rw [processResults_append]
    show dlookup (resultStep (processResults pre s) e).props _ = _
    simp only [resultStep, hn, if_true, if_false]
    rw [← hlast]
    exact dlookup_dinsert_self _ _ _
  · intro hn
    rw [processResults_append]
    show dlookup (resultStep (processResults pre s) e).props _ = _
    simp only [resultStep, hn, if_true, if_false]
    rw [← hlast]
    exact dlookup_dinsert_self _ _ _

/-- Claim C4, witness: after a primary element named `temp`, a
`qa_summary` yields `temp_qa` and a `data_flag` yields `temp_data_flags`. -/
theorem c4_witness :
    dlookup (processResults ([eTempPlain] ++ [eQa]) ⟨[], ""⟩).props
      "temp_qa" = some "100" ∧
    dlookup (processResults ([eTempPlain] ++ [eFlag]) ⟨[], ""⟩).props
      "temp_data_flags" = some "101" :=
  ⟨(c4_annotation_keys ⟨[], ""⟩ [eTempPlain] eQa).1 rfl,
   (c4_annotation_keys ⟨[], ""⟩ [eTempPlain] eFlag).2 rfl⟩

/-- Claim C5: the refined parser returns the absent record exactly when the
XML parse fails (the bare except catches the failure and the function falls
through to `None`), and never returns the absent record on a successful
parse: a non-faulting run on a parsed document always carries a record. -/
theorem c5_parse_failure_absent :
    (∀ f : String, parse_swobV2 f none = Except.ok none) ∧
    (∀ (f : String) (doc : SwobDoc) (r : Option SwobDict),
        parse_swobV2 f (some doc) = Except.ok r → r.isSome = true) := by
  constructor
  · intro f
    rfl
  · intro f doc r h
    simp only [parse_swobV2] at h
    cases hb : parseSwobBodyV2 (swobName f) doc with
    | ok d =>
      rw [hb] at h
      simp only [Except.map] at h
      injection h with h2
      subst h2
      rfl
    | error ex =>
      rw [hb] at h
      simp [Except.map] at h

/-- Claim C5, witness: a failed parse yields the absent record, and the
successful parse of `Dmin` yields a present one. -/
theorem c5_witness :
    parse_swobV2 "f.xml" none = Except.ok none ∧
    parse_swobV2 "f.xml" (some Dmin) = Except.ok (some recMinV2) ∧
    (some recMinV2).isSome = true :=
  ⟨c5_parse_failure_absent.1 "f.xml", rfl,
   c5_parse_failure_absent.2 "f.xml" Dmin (some recMinV2) rfl⟩

/-- Claim C6: the builder returns the absent result whenever the record
lacks the `properties` entry or the `coordinates` entry (in particular on
the empty record), and a Feature is produced only when both entries are
present. -/
theorem c6_builder_guard :
    (∀ d : SwobDict, d.properties = none ∨ d.coordinates = none →
        swob2geojson d = none) ∧
    (∀ (d : SwobDict) (f : Feature), swob2geojson d = some f →
        d.properties.isSome = true ∧ d.coordinates.isSome = true) := by
  constructor
  · intro d h
    obtain ⟨cs, ps⟩ := d
    rcases h with h | h
    · have hp : ps = none := h
      subst hp
      cases cs <;> rfl
    · have hc : cs = none := h
      subst hc
      cases ps <;> rfl
  · intro d f h
    obtain ⟨cs, ps⟩ := d
    cases ps <;> cases cs <;> simp [swob2geojson] at h ⊢

/-- Claim C6, witness: the empty record is rejected and a complete record
produces a Feature. -/
theorem c6_witness :
    swob2geojson ⟨none, none⟩ = none ∧
    swob2geojson ⟨some ["1", "2", "3"], some [("a", "b")]⟩ =
      some ⟨"Feature", ⟨"Point", ["1", "2", "3"]⟩, [("a", "b")]⟩ ∧
    (some [("a", "b")] : Option (List (String × String))).isSome = true ∧
    (some ["1", "2", "3"] : Option (List String)).isSome = true :=
  ⟨c6_builder_guard.1 ⟨none, none⟩ (Or.inl rfl), rfl,
   (c6_builder_guard.2 ⟨some ["1", "2", "3"], some [("a", "b")]⟩
      ⟨"Feature", ⟨"Point", ["1", "2", "3"]⟩, [("a", "b")]⟩ rfl).1,
   (c6_builder_guard.2 ⟨some ["1", "2", "3"], some [("a", "b")]⟩
      ⟨"Feature", ⟨"Point", ["1", "2", "3"]⟩, [("a", "b")]⟩ rfl).2⟩

/-- Claim C7: building a Feature from a record holding `coordinates` and
`properties` and reading the Feature back yields exactly the source
values, with `type` the literal Feature and the geometry a Point. -/
theorem c7_roundtrip (d : SwobDict) (cs : List String)
    (ps : List (String × String))
    (hc : d.coordinates = some cs) (hp : d.properties = some ps) :
    swob2geojson d = some ⟨"Feature", ⟨"Point", cs⟩, ps⟩ ∧
    ∀ f : Feature, swob2geojson d = some f →
      f.properties = ps ∧ f.geometry.coordinates = cs ∧
      f.type = "Feature" ∧ f.geometry.type = "Point" := by
  obtain ⟨c0, p0⟩ := d
  have hc' : c0 = some cs := hc
  have hp' : p0 = some ps := hp
  subst hc'
  subst hp'
  refine ⟨rfl, ?_⟩
  intro f hf
  have hsame : some (⟨"Feature", ⟨"Point", cs⟩, ps⟩ : Feature) = some f := by
    rw [← hf]
    rfl
  injection hsame with h2
  subst h2
  exact ⟨rfl, rfl, rfl, rfl⟩

/-- Claim C7, witness at a one-entry record. -/
theorem c7_witness :
    swob2geojson ⟨some ["1"], some [("k", "v")]⟩ =
      some ⟨"Feature", ⟨"Point", ["1"]⟩, [("k", "v")]⟩ :=
  (c7_roundtrip ⟨some ["1"], some [("k", "v")]⟩ ["1"] [("k", "v")] rfl rfl).1

/-- Claim C8: the coordinate entry of a successfully parsed record is the
triple longitude, latitude, elevation in that order, each slot holding the
value of the last identification element of the corresponding name and
defaulting to the empty string; on the worked example the result is the
triple of the claim. -/
theorem c8_coordinates_order :
    (∀ (es : List Xml) (s st : IState), processIdent es s = some st →
        [st.longitude, st.latitude, st.elevation] =
          [lastValueD "long" es s.longitude, lastValueD "lat" es s.latitude,
           lastValueD "stn_elev" es s.elevation]) ∧
    (∀ (nm : String) (doc : SwobDoc) (rec : SwobDict),
        parseSwobBodyV2 nm doc = Except.ok rec →
        ∃ g gt i it st,
          doc.general = g :: gt ∧ doc.identification = i :: it ∧
          processIdent (preorder i) ⟨generalPropsOf nm g, "", "", ""⟩ = some st ∧
          rec.coordinates = some [st.longitude, st.latitude, st.elevation]) ∧
    (parseSwobBodyV2 "f.xml" D8).map SwobDict.coordinates =
      Except.ok (some ["-75.5", "45.5", "100"]) := by
  refine ⟨?_, ?_, rfl⟩
  · intro es s st h
    obtain ⟨he, hl, ho⟩ := processIdent_coords es s st h
    rw [he, hl, ho]
  · intro nm doc rec h
    obtain ⟨gen, idl, stl, rtl, rel⟩ := doc
    cases gen with
    | nil => exact absurd h (by simp [parseSwobBodyV2])
    | cons g gt =>
      cases idl with
      | nil => exact absurd h (by simp [parseSwobBodyV2])
      | cons i it =>
        simp only [parseSwobBodyV2] at h
        cases hpi : processIdent (preorder i) ⟨generalPropsOf nm g, "", "", ""⟩ with
        | none =>
          simp only [hpi] at h
          exact Except.noConfusion h
        | some ist =>
          simp only [hpi] at h
          cases stl with
          | nil => simp at h
          | cons ts tst =>
            cases rtl with
            | nil => simp at h
            | cons tr trt =>
              cases rel with
              | nil => simp at h
              | cons res rest =>
                simp only [Except.ok.injEq] at h
                subst h
                exact ⟨g, gt, i, it, ist, rfl, rfl, hpi, rfl⟩

/-- Claim C8, witness: the identification subtree of the worked example
reaches the state with elevation 100, latitude 45.5, longitude -75.5. -/
theorem c8_witness :
    processIdent (preorder i8) iInit = some st8 ∧
    [st8.longitude, st8.latitude, st8.elevation] =
      [lastValueD "long" (preorder i8) iInit.longitude,
       lastValueD "lat" (preorder i8) iInit.latitude,
       lastValueD "stn_elev" (preorder i8) iInit.elevation] :=
  ⟨rfl, c8_coordinates_order.1 (preorder i8) iInit st8 rfl⟩

/-- Claim C9, counterexample: on a document whose identification subtree
holds a named element without a `value` attribute the prototype produces a
record while the refined parser raises a `KeyError`-fault, so the refined
draft does not preserve every behaviour of the prototype. -/
theorem c9_counterexample :
    parse_swobV1 "f.xml" (some D9) = Except.ok (some rec9V1) ∧
    parse_swobV2 "f.xml" (some D9) = Except.error Fault.keyError :=
  ⟨rfl, rfl⟩

/-- Claim C9, amended: the refined draft is not a strict functional
superset of the prototype (it can fault where the prototype succeeds, and
it drops identification fields the prototype records); what does hold is
that on every document where both bodies produce a record the two records
carry the same coordinate triple. -/
theorem c9_coordinate_agreement (doc : SwobDoc) (nm : String)
    (r1 : RecordV1) (r2 : SwobDict)
    (h1 : parseSwobBodyV1 doc = Except.ok r1)
    (h2 : parseSwobBodyV2 nm doc = Except.ok r2) :
    r2.coordinates = some r1.coordinates := by
  obtain ⟨gen, idl, stl, rtl, rel⟩ := doc
  cases gen with
  | nil => exact absurd h1 (by simp [parseSwobBodyV1])
  | cons g gt =>
    cases idl with
    | nil => exact absurd h1 (by simp [parseSwobBodyV1])
    | cons i it =>
      simp only [parseSwobBodyV1] at h1
      simp only [parseSwobBodyV2] at h2
      cases hp1 : processIdentV1 (preorder i) ⟨[], "", "", ""⟩ with
      | none =>
        simp only [hp1] at h1
        exact Except.noConfusion h1
      | some ist1 =>
        simp only [hp1] at h1
        cases hp2 : processIdent (preorder i) ⟨generalPropsOf nm g, "", "", ""⟩ with
        | none =>
          simp only [hp2] at h2
          exact Except.noConfusion h2
        | some ist2 =>
          simp only [hp2] at h2
          cases stl with
          | nil => simp at h1
          | cons ts tst =>
            cases rtl with
            | nil => simp at h1
            | cons tr trt =>
              cases rel with
              | nil => simp at h1
              | cons res rest =>
                simp only [Except.ok.injEq] at h1 h2
                subst h1
                subst h2
                obtain ⟨e1, l1, o1⟩ := processIdentV1_coords _ _ _ hp1
                obtain ⟨e2, l2, o2⟩ := processIdent_coords _ _ _ hp2
                have e1' : ist1.elevation = lastValueD "stn_elev" (preorder i) "" := e1
                have l1' : ist1.latitude = lastValueD "lat" (preorder i) "" := l1
                have o1' : ist1.longitude = lastValueD "long" (preorder i) "" := o1
                have e2' : ist2.elevation = lastValueD "stn_elev" (preorder i) "" := e2
                have l2' : ist2.latitude = lastValueD "lat" (preorder i) "" := l2
                have o2' : ist2.longitude = lastValueD "long" (preorder i) "" := o2
                show some [ist2.longitude, ist2.latitude, ist2.elevation] =
                  some [ist1.longitude, ist1.latitude, ist1.elevation]
                rw [e1', l1', o1', e2', l2', o2']

/-- Claim C9, witness for the amended theorem: on the minimal document both
drafts succeed and agree on the coordinates. -/
theorem c9_witness :
    parseSwobBodyV1 Dmin = Except.ok recMinV1 ∧
    parseSwobBodyV2 "f.xml" Dmin = Except.ok recMinV2 ∧
    recMinV2.coordinates = some recMinV1.coordinates :=
  ⟨rfl, rfl, c9_coordinate_agreement Dmin "f.xml" recMinV1 recMinV2 rfl rfl⟩

/-- Claim C10: in the refined identification loop the `value` attribute is
read before the name is matched, so any named identification element
without a `value` attribute makes the step fault, and on a document
containing such an element (name outside the recognized set) the refined
parser raises the fault instead of defaulting to the empty string. -/
theorem c10_value_required :
    (∀ (s : IState) (e : Xml) (n : String),
        attr? e "name" = some n → attr? e "value" = none →
        identStep s e = none) ∧
    parse_swobV2 "g.xml" (some D9) = Except.error Fault.keyError := by
  constructor
  · intro s e n hn hv
    simp [identStep, hn, hv]
  · rfl

/-- Claim C10, witness: the `stn_typ` element of `D9` has a name but no
value, and the identification step faults on it. -/
theorem c10_witness :
    attr? eStnTyp "name" = some "stn_typ" ∧
    attr? eStnTyp "value" = none ∧
    identStep iInit eStnTyp = none :=
  ⟨rfl, rfl, c10_value_required.1 iInit eStnTyp "stn_typ" rfl rfl⟩

end Swob
